import Mathlib

/-!
Verification of the crash-pipeline repository: a shallow embedding of the
cleaner (pandas `cleaning_rules.py`, `duckdb_writer.py`, `cleaner.py`) and the
transformer (polars `transformer.py`), with theorems settling the frozen
claims about the natural-language specification.
-/

deriving instance DecidableEq for Except

namespace CrashPipeline

/- ------------------------------------------------------------------ -/
/- Generic string/list helpers modelling Python/pandas primitives      -/
/- ------------------------------------------------------------------ -/

/-- Python's whitespace set used by `str.strip()` (ASCII part). -/
def isSpaceChar (c : Char) : Bool :=
  c = ' ' || c = '\t' || c = '\n' || c = '\r' || c = '\x0b' || c = '\x0c'

/-- Strip leading and trailing whitespace from a character list. -/
def stripChars (l : List Char) : List Char :=
  ((l.dropWhile isSpaceChar).reverse.dropWhile isSpaceChar).reverse

/-- Models Python `str.strip()` / pandas `.str.strip()` on one string. -/
def strip (s : String) : String := ⟨stripChars s.data⟩

/-- ASCII lowercase of one character (Python `str.lower()` restricted to the
ASCII range the pipeline's vocabulary uses). -/
def lowerChar (c : Char) : Char := if c.isUpper then Char.ofNat (c.toNat + 32) else c

/-- Models Python `str.lower()`. -/
def lowerStr (s : String) : String := ⟨s.data.map lowerChar⟩

/-- Split a character list on a separator character (Python `str.split(sep)`). -/
def splitOnChar (sep : Char) : List Char → List (List Char)
  | [] => [[]]
  | c :: cs =>
    let r := splitOnChar sep cs
    if c = sep then [] :: r
    else
      match r with
      | h :: t => (c :: h) :: t
      | [] => [[c]]

/- ------------------------------------------------------------------ -/
/- Exact rational arithmetic (kernel-evaluable wrappers around mkRat)  -/
/- ------------------------------------------------------------------ -/

/-- Exact sum of two rationals. -/
def ratAdd (a b : Rat) : Rat := mkRat (a.num * b.den + b.num * a.den) (a.den * b.den)

/-- Exact quotient of a rational by a natural number. -/
def ratDivNat (a : Rat) (n : Nat) : Rat := mkRat a.num (a.den * n)

/-- Decidable order on rationals by cross-multiplication (denominators are
positive on normalized rationals). -/
def ratLeB (a b : Rat) : Bool := a.num * b.den ≤ b.num * a.den

/-- An integer as a rational. -/
def intToRat (n : Int) : Rat := mkRat n 1

/-- Negation of a rational. -/
def ratNeg (a : Rat) : Rat := mkRat (-a.num) a.den

/- ------------------------------------------------------------------ -/
/- Pandas data model (cleaner side)                                    -/
/- ------------------------------------------------------------------ -/

/-- One pandas cell: missing (NaN/NA), a string, an integer, or a
non-integral number (floats are idealized as rationals). -/
inductive PdVal where
  | na
  | s (x : String)
  | i (n : Int)
  | q (x : Rat)
deriving DecidableEq, Repr

/-- The pandas dtypes the cleaning pipeline distinguishes. -/
inductive PdTy where
  | obj | strg | int8 | int16 | int64 | float64
deriving DecidableEq, Repr

/-- A pandas Series: a dtype and the column's values. -/
structure PdSeries where
  dty : PdTy
  vals : List PdVal
deriving DecidableEq, Repr

/-- A pandas DataFrame, column-major: association list column name → Series. -/
abbrev PdDF := List (String × PdSeries)

/-- pandas `is_object_dtype(col) or is_string_dtype(col)`. -/
def isStrLike : PdTy → Bool
  | .obj => true
  | .strg => true
  | _ => false

/-- pandas `is_numeric_dtype` (nullable Int8/Int16 are numeric; strings are not). -/
def isNumericTy : PdTy → Bool
  | .int8 => true
  | .int16 => true
  | .int64 => true
  | .float64 => true
  | _ => false

/-- pandas `astype("string")` on one cell: numbers are rendered as text,
missing values stay missing.  (Float rendering is idealized via `Rat`.) -/
def pdValToStr : PdVal → PdVal
  | .na => .na
  | .s x => .s x
  | .i n => .s (toString n)
  | .q x => .s (toString x)

/-- pandas `.str.strip()` on one cell. -/
def stripVal : PdVal → PdVal
  | .s x => .s (strip x)
  | v => v

/-- pandas `.str.lower()` on one cell. -/
def lowerVal : PdVal → PdVal
  | .s x => .s (lowerStr x)
  | v => v

/-- `astype("string").str.strip()` on one cell — the treatment the source
applies to ID columns (`_normalize_text`) and to the final PK hygiene. -/
def strsVal (v : PdVal) : PdVal := stripVal (pdValToStr v)

/-- Models `_to_lower_stripped`: `astype("string").str.strip().str.lower()`. -/
def toLowerStripped (sr : PdSeries) : PdSeries :=
  ⟨.strg, sr.vals.map (fun v => lowerVal (strsVal v))⟩

/- ------------------------------------------------------------------ -/
/- cleaning_rules.py : constants                                       -/
/- ------------------------------------------------------------------ -/

def ID_COLS : List String := ["crash_record_id", "vehicle_id", "person_id"]

def NUMERIC_COLS : List String := ["posted_speed_limit", "lane_cnt", "street_no"]

def CATEGORICAL_COLS : List String :=
  ["traffic_control_device", "device_condition", "weather_condition",
   "lighting_condition", "trafficway_type", "alignment",
   "roadway_surface_cond", "road_defect", "street_name",
   "street_direction", "crash_type", "make", "model",
   "travel_direction", "person_type"]

def DATE_COL : String := "crash_date"

def DERIVED_DATE_COLS : List String :=
  ["crash_year", "crash_month", "crash_day", "crash_hour"]

def KEEP_COLS : List String :=
  ID_COLS ++ NUMERIC_COLS ++ CATEGORICAL_COLS ++ DERIVED_DATE_COLS

/-- The `YES_NO_TRUE_FALSE` vocabulary of `cleaning_rules.py`. -/
def YES_NO_TRUE_FALSE : List (String × Int) :=
  [("y", 1), ("yes", 1), ("true", 1), ("t", 1), ("1", 1),
   ("n", 0), ("no", 0), ("false", 0), ("f", 0), ("0", 0)]

/-- Dictionary lookup in the fixed vocabulary. -/
def vocabLookup (x : String) : Option Int :=
  (YES_NO_TRUE_FALSE.find? (fun p => decide (p.1 = x))).map (·.2)

/-- `Series.map(YES_NO_TRUE_FALSE)` on one (already stripped/lowered) cell:
unmapped values become missing. -/
def vocabMapVal (v : PdVal) : PdVal :=
  match v with
  | .s x =>
    match vocabLookup x with
    | some n => .i n
    | none => .na
  | _ => .na

/-- Models `_map_yes_no_to_int`: build the stripped/lowered string view, map
the fixed vocabulary into nullable Int8, and finalize as Int8 exactly when the
source does — when the mapped column has at least one non-null value and every
non-null mapped value is 0/1 (the second conjunct is vacuously true, since the
vocabulary only produces 0/1). Otherwise return the original series. -/
def mapYesNoToInt (sr : PdSeries) : PdSeries :=
  let sStr := sr.vals.map (fun v => lowerVal (strsVal v))
  let mapped := sStr.map vocabMapVal
  let nonnull := mapped.filter (fun v => v != .na)
  if !nonnull.isEmpty && nonnull.all (fun v => v == .i 0 || v == .i 1) then
    ⟨.int8, mapped⟩
  else sr

/-- Models `_convert_yes_no`: attempt the yes/no conversion on every
string-like column; a column is replaced (and recorded in `bool_cols`) exactly
when `_map_yes_no_to_int` returned a fresh Int8 series (`new_s is not df[c]
and str(new_s.dtype) == "Int8"`). -/
def convertYesNo (df : PdDF) : PdDF × List String :=
  (df.map (fun p =>
      (p.1,
        if isStrLike p.2.dty then
          let m := mapYesNoToInt p.2
          if m.dty == .int8 && m != p.2 then m else p.2
        else p.2)),
   df.filterMap (fun p =>
      if isStrLike p.2.dty then
        let m := mapYesNoToInt p.2
        if m.dty == .int8 && m != p.2 then some p.1 else none
      else none))

/- ------------------------------------------------------------------ -/
/- DataFrame helpers                                                   -/
/- ------------------------------------------------------------------ -/

/-- Column names of a DataFrame, in order. -/
def colNames (df : PdDF) : List String := df.map (·.1)

/-- Look up the (first) column with a given name. -/
def findCol (df : PdDF) (c : String) : Option PdSeries :=
  (df.find? (fun p => p.1 == c)).map (·.2)

/-- Assignment `df[name] = series`: replace in place, or append a new column. -/
def setCol (df : PdDF) (name : String) (sr : PdSeries) : PdDF :=
  if df.any (fun p => p.1 == name) then
    df.map (fun p => if p.1 == name then (name, sr) else p)
  else df ++ [(name, sr)]

/-- Apply a per-column transformation to every column. -/
def mapCols (f : String → PdSeries → PdSeries) (df : PdDF) : PdDF :=
  df.map (fun p => (p.1, f p.1 p.2))

/-- Keep the rows selected by a boolean mask (row-aligned with the values). -/
def applyMask : List Bool → List PdVal → List PdVal
  | b :: bs, v :: vs => if b then v :: applyMask bs vs else applyMask bs vs
  | _, _ => []

/- ------------------------------------------------------------------ -/
/- cleaning_rules.py : numeric coercion, dates, imputation             -/
/- ------------------------------------------------------------------ -/

/-- Digits of a numeral to a natural number. -/
def digitsToNat (l : List Char) : Nat :=
  l.foldl (fun acc c => acc * 10 + (c.toNat - 48)) 0

/-- Parse a non-empty all-digit field. -/
def parseNatField (l : List Char) : Option Nat :=
  if !l.isEmpty && l.all Char.isDigit then some (digitsToNat l) else none

/-- Models the numeric-string acceptance of `pd.to_numeric(errors="coerce")`:
optional sign, digits with an optional decimal point (floats idealized as
exact rationals); anything else is unparseable. -/
def parseNumericStr (s : String) : Option Rat :=
  let t := stripChars s.data
  let neg := t.head? = some '-'
  let u := if t.head? = some '-' ∨ t.head? = some '+' then t.tail else t
  let core : Option Rat :=
    match splitOnChar '.' u with
    | [a] => (parseNatField a).map (fun n => intToRat n)
    | [a, b] =>
      if (a.all Char.isDigit && b.all Char.isDigit) && !(a.isEmpty && b.isEmpty) then
        some (mkRat (digitsToNat a * 10 ^ b.length + digitsToNat b) (10 ^ b.length))
      else none
    | _ => none
  core.map (fun r => if neg then ratNeg r else r)

/-- A rational back to a pandas cell (whole numbers as integers). -/
def ratToPdNum (r : Rat) : PdVal := if r.den = 1 then .i r.num else .q r

/-- Models `pd.to_numeric(col, errors="coerce")`: numeric columns pass
through; other columns have each value parsed, unparseable values becoming
missing (the row is kept). -/
def toNumericSeries (sr : PdSeries) : PdSeries :=
  if isNumericTy sr.dty then sr
  else
    let vals := sr.vals.map (fun v =>
      match v with
      | .s x => (match parseNumericStr x with | some r => ratToPdNum r | none => .na)
      | .na => .na
      | .i n => .i n
      | .q x => .q x)
    let hasNaOrFloat := vals.any (fun v =>
      match v with | .na => true | .q _ => true | _ => false)
    ⟨if hasNaOrFloat then PdTy.float64 else PdTy.int64, vals⟩

/-- Models `_coerce_numeric`: coerce the designated numeric columns. -/
def coerceNumeric (df : PdDF) : PdDF :=
  mapCols (fun n s => if n ∈ NUMERIC_COLS then toNumericSeries s else s) df

/-- Models `_normalize_text`: ID columns are trimmed only (case preserved);
every other string-like column is trimmed and lowercased. -/
def normalizeText (df : PdDF) : PdDF :=
  mapCols (fun n s =>
    if n ∈ ID_COLS then ⟨.strg, s.vals.map strsVal⟩
    else if isStrLike s.dty then toLowerStripped s
    else s) df

/-- Parse a `YYYY-MM-DD` date part. -/
def parseDatePart (d : List Char) : Option (Int × Int × Int) :=
  match splitOnChar '-' d with
  | [y, m, dd] =>
    match parseNatField y, parseNatField m, parseNatField dd with
    | some yn, some mn, some dn =>
      if 1 ≤ mn && mn ≤ 12 && 1 ≤ dn && dn ≤ 31 then
        some ((yn : Int), (mn : Int), (dn : Int))
      else none
    | _, _, _ => none
  | _ => none

/-- Models `pd.to_datetime(..., errors="coerce", utc=True)` on ISO-like
`YYYY-MM-DD[ T]HH:MM[:SS]` text (year, month, day, hour); anything else
coerces to NaT. -/
def parseDatetime (x : String) : Option (Int × Int × Int × Int) :=
  let t := (stripChars x.data).map (fun c => if c = 'T' then ' ' else c)
  match splitOnChar ' ' t with
  | [d] => (parseDatePart d).map (fun p => (p.1, p.2.1, p.2.2, 0))
  | [d, tm] =>
    match parseDatePart d, splitOnChar ':' tm with
    | some p, h :: _ =>
      (parseNatField h).bind (fun hn =>
        if hn ≤ 23 then some (p.1, p.2.1, p.2.2, (hn : Int)) else none)
    | _, _ => none
  | _ => none

/-- Extract one date component as a nullable integer column. -/
def dtField (f : Int × Int × Int × Int → Int)
    (dts : List (Option (Int × Int × Int × Int))) : List PdVal :=
  dts.map (fun o => match o with | some t => .i (f t) | none => .na)

/-- Models `_split_crash_datetime`: if the date column exists, parse it and
derive integer year/month/day/hour sub-columns (missing where unparseable). -/
def splitCrashDatetime (df : PdDF) : PdDF :=
  match findCol df DATE_COL with
  | none => df
  | some sr =>
    let dts := sr.vals.map (fun v =>
      match v with | .s x => parseDatetime x | _ => none)
    let df := setCol df "crash_year" ⟨.int16, dtField (fun t => t.1) dts⟩
    let df := setCol df "crash_month" ⟨.int8, dtField (fun t => t.2.1) dts⟩
    let df := setCol df "crash_day" ⟨.int8, dtField (fun t => t.2.2.1) dts⟩
    setCol df "crash_hour" ⟨.int8, dtField (fun t => t.2.2.2) dts⟩

/-- Numeric view of a cell, skipping missing/textual values. -/
def pdValToRat : PdVal → Option Rat
  | .i n => some (intToRat n)
  | .q x => some x
  | _ => none

/-- Insertion into a sorted list of rationals. -/
def insertRat (x : Rat) : List Rat → List Rat
  | [] => [x]
  | y :: ys => if ratLeB x y then x :: y :: ys else y :: insertRat x ys

/-- Insertion sort of rationals. -/
def sortRats (l : List Rat) : List Rat := l.foldr insertRat []

/-- pandas `Series.median(skipna=True)`: middle of the sorted non-missing
values (mean of the two middles at even count); `none` when no numeric
value exists. -/
def seriesMedian (sr : PdSeries) : Option Rat :=
  let xs := sortRats (sr.vals.filterMap pdValToRat)
  if xs.isEmpty then none
  else if xs.length % 2 = 1 then some (xs.getD (xs.length / 2) (intToRat 0))
  else some (ratDivNat
    (ratAdd (xs.getD (xs.length / 2 - 1) (intToRat 0)) (xs.getD (xs.length / 2) (intToRat 0))) 2)

/-- `fillna`: replace missing cells with a fill value. -/
def fillnaVal (fill : PdVal) (v : PdVal) : PdVal := if v == .na then fill else v

/-- Models the two passes of `_impute_missing` on one column: the numeric
pass skips `bool_cols` and fills missing values with the column median
(0 when the whole column is missing); the string pass fills non-ID
string-like columns with the literal "missing". -/
def imputeCol (boolCols : List String) (name : String) (sr : PdSeries) : PdSeries :=
  let afterNum :=
    if name ∈ boolCols then sr
    else if isNumericTy sr.dty then
      ⟨sr.dty, sr.vals.map (fillnaVal (.q ((seriesMedian sr).getD (intToRat 0))))⟩
    else sr
  if isStrLike afterNum.dty then
    if name ∈ ID_COLS then afterNum
    else ⟨afterNum.dty, afterNum.vals.map (fillnaVal (.s "missing"))⟩
  else afterNum

/-- Models `_impute_missing` over the whole DataFrame. -/
def imputeMissing (df : PdDF) (boolCols : List String) : PdDF :=
  mapCols (imputeCol boolCols) df

/- ------------------------------------------------------------------ -/
/- cleaning_rules.py : apply_cleaning                                  -/
/- ------------------------------------------------------------------ -/

/-- PK-resolution step of `apply_cleaning`: if the canonical PK column is
absent, rename the first matching alias. -/
def renamePK (df : PdDF) : PdDF :=
  if "crash_record_id" ∈ colNames df then df
  else
    match ["record_id", "id", "crash_id"].find? (fun a => (colNames df).contains a) with
    | some alt => df.map (fun p => if p.1 == alt then ("crash_record_id", p.2) else p)
    | none => df

/-- Mask for `drop_duplicates(subset=[pk], keep="last")`: a row survives iff
no later row carries the same PK value (missing compares equal to missing,
as in pandas). -/
def keepLastMask : List PdVal → List Bool
  | [] => []
  | v :: vs => (decide (v ∉ vs)) :: keepLastMask vs

/-- Models `df.drop_duplicates(subset=["crash_record_id"], keep="last")`. -/
def dropDupPKLast (df : PdDF) : PdDF :=
  match findCol df "crash_record_id" with
  | none => df
  | some pkc =>
    let mask := keepLastMask pkc.vals
    mapCols (fun _ s => ⟨s.dty, applyMask mask s.vals⟩) df

/-- Row filter of the final PK hygiene: keep rows whose (already
string-converted) PK is a non-missing, non-empty string. -/
def keepPKMask (vals : List PdVal) : List Bool :=
  vals.map (fun v => match v with | .s x => decide (x ≠ "") | _ => false)

/-- Models the final PK hygiene of `apply_cleaning`: re-string and trim the
PK column, then drop rows whose PK is missing or empty. -/
def finalPKHygiene (df : PdDF) : PdDF :=
  match findCol df "crash_record_id" with
  | none => df
  | some pkc =>
    let newpk : PdSeries := ⟨.strg, pkc.vals.map strsVal⟩
    let df := setCol df "crash_record_id" newpk
    let mask := keepPKMask newpk.vals
    mapCols (fun _ s => ⟨s.dty, applyMask mask s.vals⟩) df

/-- Models the whitelist projection `df[keep]`. -/
def projectKeep (df : PdDF) : PdDF :=
  (KEEP_COLS.filter (fun c => (colNames df).contains c)).filterMap
    (fun c => (findCol df c).map (fun sr => (c, sr)))

inductive CleanErr where
  | missingPK
deriving DecidableEq, Repr

/-- Models `apply_cleaning`: the fixed, order-dependent normalization
pipeline; the only fatal condition is a missing primary key. -/
def applyCleaning (df : PdDF) : Except CleanErr PdDF :=
  let df := renamePK df
  if "crash_record_id" ∈ colNames df then
    let df := dropDupPKLast df
    let df := coerceNumeric df
    let df := normalizeText df
    let p := convertYesNo df
    let df := splitCrashDatetime p.1
    let df := imputeMissing df p.2
    let df := finalPKHygiene df
    .ok (projectKeep df)
  else .error .missingPK

/- ------------------------------------------------------------------ -/
/- duckdb_writer.py : the schema-evolving upsert store                 -/
/- ------------------------------------------------------------------ -/

/-- Number of rows of a (column-aligned) DataFrame. -/
def dfHeight (df : PdDF) : Nat :=
  match df with
  | [] => 0
  | p :: _ => p.2.vals.length

/-- pandas `df.empty`: true when either axis has length zero. -/
def dfEmpty (df : PdDF) : Bool := df.isEmpty || dfHeight df == 0

/-- DuckDB column types inferred from a registered pandas frame
(`_infer_df_types`). -/
def duckTypeOf : PdTy → String
  | .obj => "VARCHAR"
  | .strg => "VARCHAR"
  | .int8 => "TINYINT"
  | .int16 => "SMALLINT"
  | .int64 => "BIGINT"
  | .float64 => "DOUBLE"

/-- One stored DuckDB table: ordered columns with their type names, the
primary-key column its constraint covers, and row-major data. -/
structure DTable where
  cols : List (String × String)
  pk : String
  rows : List (List PdVal)
deriving DecidableEq, Repr

/-- One row of the run-ledger table (`processed_at` carries no information
the claims depend on and is omitted). -/
structure LedgerRow where
  corr_id : String
  table_name : String
  row_count : Int
deriving DecidableEq, Repr

/-- The DuckDB database file: the gold tables, and the run-ledger table
(`none` when the `_clean_runs` table does not exist in the catalog). -/
structure DuckDB where
  tables : List (String × DTable)
  ledger : Option (List LedgerRow)
deriving DecidableEq, Repr

inductive DuckErr where
  | parserError
  | catalogMissingTable
  | valueError
  | binderError
  | constraintViolation
deriving DecidableEq, Repr

/-- Whether `pat` occurs as a prefix of `l`. -/
def startsWithL : List Char → List Char → Bool
  | [], _ => true
  | _ :: _, [] => false
  | p :: ps, c :: cs => p == c && startsWithL ps cs

/-- Whether `pat` occurs as a contiguous sublist of `l`. -/
def occursIn (pat : List Char) : List Char → Bool
  | [] => pat.isEmpty
  | c :: cs => startsWithL pat (c :: cs) || occursIn pat cs

/-- The SQL text `_init_meta` executes, verbatim from the source (whitespace
condensed). It is truncated: `CREATE TABLE IF NOT E(` is not a well-formed
CREATE statement, so DuckDB's parser rejects it and `DuckDBWriter.__init__`
raises. -/
def initMetaSQL : String :=
  "CREATE TABLE IF NOT E( corr_id TEXT PRIMARY KEY, table_name TEXT, row_count BIGINT, processed_at TIMESTAMP DEFAULT now() );"

/-- The table name `record_run`'s INSERT statement targets. -/
def ledgerTableName : String := "_clean_runs"

/-- Whether an SQL text mentions a table name at all: a statement whose text
never contains `t` cannot create a table named `t`, whatever the parser makes
of the rest. -/
def mentionsTable (sql t : String) : Bool := occursIn t.data sql.data

/-- The database state after `DuckDBWriter.__init__` ran `_init_meta`:
the malformed CREATE statement created nothing (it does not even mention
`_clean_runs`), so the catalog holds no gold table and no ledger table. -/
def initDB : DuckDB := ⟨[], none⟩

/-- Models `_init_meta`: executing the malformed `initMetaSQL` raises a
parser error. -/
def initMeta (_db : DuckDB) : Except DuckErr DuckDB := .error .parserError

/-- Look up a stored table by name. -/
def findTable (db : DuckDB) (t : String) : Option DTable :=
  ((db.tables).find? (fun p => p.1 == t)).map (·.2)

/-- Models `_ensure_table`: `CREATE TABLE IF NOT EXISTS ... AS SELECT * FROM
clean_df_schema` — create an empty table from the incoming frame's schema if
absent — followed by a best-effort ADD CONSTRAINT PRIMARY KEY whose failure
is swallowed. -/
def ensureTable (db : DuckDB) (table : String) (df : PdDF) (pk : String) : DuckDB :=
  if (db.tables.any (fun p => p.1 == table)) then db
  else
    { db with tables :=
        db.tables ++ [(table, ⟨df.map (fun p => (p.1, duckTypeOf p.2.dty)), pk, []⟩)] }

/-- The incoming columns absent from the stored table, with their inferred
DuckDB types (the `inferred.get(col, "TEXT")` default is unreachable since
every needed column comes from the frame itself). -/
def newColumns (t : DTable) (df : PdDF) : List (String × String) :=
  (df.filter (fun p => !(t.cols.any (fun c => c.1 == p.1)))).map
    (fun p => (p.1, duckTypeOf p.2.dty))

/-- Models `_evolve_schema` on one table: ADD COLUMN for each missing
incoming column; previously stored rows read NULL in the added columns. -/
def evolveTable (t : DTable) (df : PdDF) : DTable :=
  let nc := newColumns t df
  if nc.isEmpty then t
  else ⟨t.cols ++ nc, t.pk, t.rows.map (fun r => r ++ List.replicate nc.length PdVal.na)⟩

/-- Models `_evolve_schema` at the database level. -/
def evolveSchema (db : DuckDB) (table : String) (df : PdDF) : DuckDB :=
  { db with tables :=
      db.tables.map (fun p => if p.1 == table then (p.1, evolveTable p.2 df) else p) }

/-- Cell `i` of column `c` of the registered frame. -/
def cellOfDf (df : PdDF) (c : String) (i : Nat) : PdVal :=
  match findCol df c with
  | some sr => sr.vals.getD i .na
  | none => .na

/-- Value of column `c` in a stored row. -/
def rowCell (t : DTable) (r : List PdVal) (c : String) : PdVal :=
  match t.cols.findIdx? (fun p => p.1 == c) with
  | some j => r.getD j .na
  | none => .na

/-- One source row of `INSERT ... ON CONFLICT (pk) DO UPDATE`: a NULL key
violates the PK constraint; a key equal to a stored row's key overwrites that
row's non-PK incoming columns; otherwise a fresh row is appended (columns the
batch does not provide read NULL). -/
def upsertRow (dfCols : List String) (pk : String) (df : PdDF) (t : DTable) (i : Nat) :
    Except DuckErr DTable :=
  let key := cellOfDf df pk i
  if key == .na then .error .constraintViolation
  else if t.rows.any (fun r => rowCell t r pk == key) then
    .ok { t with rows := t.rows.map (fun r =>
      if rowCell t r pk == key then
        t.cols.mapIdx (fun j p =>
          if p.1 != pk && dfCols.contains p.1 then cellOfDf df p.1 i else r.getD j .na)
      else r) }
  else
    .ok { t with rows := t.rows ++
      [t.cols.map (fun p => if dfCols.contains p.1 then cellOfDf df p.1 i else .na)] }

/-- The whole `INSERT ... ON CONFLICT` statement, row by row in frame order. -/
def insertBatch (t : DTable) (df : PdDF) (pk : String) : Except DuckErr DTable :=
  (List.range (dfHeight df)).foldlM (upsertRow (colNames df) pk df) t

/-- The `SELECT COUNT(*) FROM t JOIN clean_df s ON t.pk = s.pk` statement:
join pairs on PK equality (SQL NULL never joins). -/
def affectedCount (t : DTable) (df : PdDF) (pk : String) : Int :=
  ((List.range (dfHeight df)).map (fun i =>
    let key := cellOfDf df pk i
    if key == .na then 0
    else ((t.rows.filter (fun r => rowCell t r pk == key)).length : Int))).sum

/-- Models `DuckDBWriter.upsert`: return 0 untouched on an empty frame;
ValueError when the PK column is absent; otherwise ensure the table exists,
evolve its schema, run the upsert statement and report the join count. -/
def upsert (table : String) (df : PdDF) (pk : String) (db : DuckDB) :
    Except DuckErr (DuckDB × Int) :=
  if dfEmpty df then .ok (db, 0)
  else if !(colNames df).contains pk then .error .valueError
  else
    let db := ensureTable db table df pk
    let db := evolveSchema db table df
    match findTable db table with
    | none => .error .catalogMissingTable
    | some t =>
      if t.pk != pk then .error .binderError
      else
        match insertBatch t df pk with
        | .error e => .error e
        | .ok t' =>
          .ok ({ db with tables :=
                  db.tables.map (fun p => if p.1 == table then (p.1, t') else p) },
               affectedCount t' df pk)

/-- Models `record_run`: `INSERT INTO "_clean_runs" ... ON CONFLICT (corr_id)
DO UPDATE` — a catalog error when the ledger table does not exist; otherwise
the first call for a corr_id inserts and later calls overwrite in place. -/
def recordRun (corr table : String) (rows : Int) (db : DuckDB) : Except DuckErr DuckDB :=
  match db.ledger with
  | none => .error .catalogMissingTable
  | some rs =>
    if rs.any (fun r => r.corr_id == corr) then
      let rs' := rs.map (fun r => if r.corr_id == corr then ⟨corr, table, rows⟩ else r)
      .ok { db with ledger := some rs' }
    else .ok { db with ledger := some (rs ++ [⟨corr, table, rows⟩]) }

/-- Number of ledger rows recorded for a corr_id. -/
def ledgerCountFor (db : DuckDB) (corr : String) : Nat :=
  match db.ledger with
  | none => 0
  | some rs => (rs.filter (fun r => r.corr_id == corr)).length

/- ------------------------------------------------------------------ -/
/- transformer.py : polars data model                                  -/
/- ------------------------------------------------------------------ -/

/-- The polars dtypes the transformer distinguishes. -/
inductive PlTy where
  | utf8 | int64 | uint32 | listOfUtf8 | other
deriving DecidableEq, Repr

/-- One polars cell. -/
inductive PlVal where
  | null
  | str (s : String)
  | int (n : Int)
  | lst (xs : List String)
deriving DecidableEq, Repr

/-- A polars DataFrame: a schema and row-major data. -/
structure PlDF where
  schema : List (String × PlTy)
  rows : List (List PlVal)
deriving DecidableEq, Repr

/-- The schema-less empty frame `pl.DataFrame()` produced by `load_dataset`
when no raw object matches. -/
def emptyPl : PlDF := ⟨[], []⟩

/-- Column names of a polars frame. -/
def plCols (df : PlDF) : List String := df.schema.map (·.1)

/-- Dedup keeping the first occurrence, via an accumulator of seen values. -/
def dedupFirstAux [DecidableEq α] (seen : List α) : List α → List α
  | [] => []
  | x :: xs =>
    if x ∈ seen then dedupFirstAux seen xs else x :: dedupFirstAux (x :: seen) xs

/-- Dedup keeping the first occurrence. -/
def dedupFirst [DecidableEq α] (l : List α) : List α := dedupFirstAux [] l

/-- Column-name standardization `c.strip().lower()`. -/
def stdName (c : String) : String := lowerStr (strip c)

/-- Models `basic_standardize`: empty frames pass through; otherwise
lowercase the column names and drop exact-duplicate rows, keeping order. -/
def basicStandardize (df : PlDF) : PlDF :=
  if df.rows.isEmpty then df
  else ⟨df.schema.map (fun p => (stdName p.1, p.2)), dedupFirst df.rows⟩

/-- Models the `_ensure_id` helper of `merge_crash_vehicles_people`: rename
the first case-insensitive match of the id column to its lowercase form. -/
def ensureId (idLower : String) (df : PlDF) : PlDF :=
  if df.rows.isEmpty || (plCols df).contains idLower then df
  else
    match (plCols df).find? (fun c => lowerStr c == idLower) with
    | some c => ⟨df.schema.map (fun p => if p.1 == c then (idLower, p.2) else p), df.rows⟩
    | none => df

/-- Position of a column in the schema. -/
def plColIdx (df : PlDF) (c : String) : Option Nat :=
  df.schema.findIdx? (fun p => p.1 == c)

/-- Value of column `c` in one row. -/
def plCell (df : PlDF) (r : List PlVal) (c : String) : PlVal :=
  match plColIdx df c with
  | some j => r.getD j .null
  | none => .null

/-- The values of column `c`, row by row. -/
def plColVals (df : PlDF) (c : String) : List PlVal :=
  df.rows.map (fun r => plCell df r c)

/-- `df.schema.get(c, pl.Utf8)`. -/
def plTyOf (df : PlDF) (c : String) : PlTy :=
  ((df.schema.find? (fun p => p.1 == c)).map (·.2)).getD .utf8

/-- Lexicographic order on character lists. -/
def strLexLe : List Char → List Char → Bool
  | [], _ => true
  | _ :: _, [] => false
  | a :: as, b :: bs => if a = b then strLexLe as bs else decide (a.toNat < b.toNat)

/-- Lexicographic order on strings (polars Utf8 ascending sort). -/
def strLeB (a b : String) : Bool := strLexLe a.data b.data

/-- Insertion into a sorted list of strings. -/
def insertStr (x : String) : List String → List String
  | [] => [x]
  | y :: ys => if strLeB x y then x :: y :: ys else y :: insertStr x ys

/-- Insertion sort of strings. -/
def sortStrs (l : List String) : List String := l.foldr insertStr []

/-- Cast one cell to Utf8 for the list aggregation (the selected columns are
textual, so only strings and nulls occur there). -/
def plValAsStr : PlVal → Option String
  | .str s => some s
  | .int n => some (toString n)
  | _ => none

/-- The `col(c).drop_nulls().cast(Utf8).unique().sort().implode()`
aggregation: the sorted distinct non-null values of a group. -/
def sortedUniqueStrs (vals : List PlVal) : List String :=
  sortStrs (dedupFirst (vals.filterMap plValAsStr))

/-- The text-column selection policy: the first five non-id columns whose
schema type is Utf8, in frame order. -/
def textColsOf (df : PlDF) (id : String) : List String :=
  (((df.schema.filter (fun p => p.1 != id)).filter (fun p => p.2 == PlTy.utf8)).map (·.1)).take 5

/-- Models `aggregate_many_to_one`: group by the id (order maintained),
attach `<pfx>_count` = group size and `<pfx>_<c>_list` = sorted unique
non-null values for up to five textual columns. -/
def aggregateManyToOne (df : PlDF) (id pfx : String) : PlDF :=
  if df.rows.isEmpty then df
  else
    let keys := dedupFirst (plColVals df id)
    let tcs := textColsOf df id
    { schema := (id, plTyOf df id) :: (pfx ++ "_count", PlTy.uint32) ::
        tcs.map (fun c => (pfx ++ "_" ++ c ++ "_list", PlTy.listOfUtf8)),
      rows := keys.map (fun v =>
        let grp := df.rows.filter (fun r => plCell df r id == v)
        v :: .int grp.length ::
          tcs.map (fun c => .lst (sortedUniqueStrs (grp.map (fun r => plCell df r c))))) }

inductive PlErr where
  | columnNotFound
deriving DecidableEq, Repr

/-- Models `DataFrame.join(other, on=id, how="left")`: the key column must
exist in both frames (else polars raises ColumnNotFoundError); left rows with
no non-null match are padded with nulls, and each matching right row
contributes its non-key columns. -/
def leftJoin (l r : PlDF) (id : String) : Except PlErr PlDF :=
  if !(l.schema.any (fun p => p.1 == id)) || !(r.schema.any (fun p => p.1 == id)) then
    .error .columnNotFound
  else
    let rRest := r.schema.filter (fun p => p.1 != id)
    .ok { schema := l.schema ++ rRest,
          rows := l.rows.flatMap (fun a =>
            let k := plCell l a id
            let ms := if k == .null then [] else r.rows.filter (fun m => plCell r m id == k)
            if ms.isEmpty then [a ++ List.replicate rRest.length PlVal.null]
            else ms.map (fun m => a ++ rRest.map (fun p => plCell r m p.1))) }

/-- Keep the first row per key value of column `c`. -/
def uniqueByAux (df : PlDF) (c : String) (seen : List PlVal) :
    List (List PlVal) → List (List PlVal)
  | [] => []
  | r :: rs =>
    let k := plCell df r c
    if k ∈ seen then uniqueByAux df c seen rs
    else r :: uniqueByAux df c (k :: seen) rs

/-- Models `df.unique(subset=[c], keep="first", maintain_order=True)`: the
subset column must exist (else polars raises ColumnNotFoundError). -/
def uniqueSubsetFirst (df : PlDF) (c : String) : Except PlErr PlDF :=
  if !(df.schema.any (fun p => p.1 == c)) then .error .columnNotFound
  else .ok { df with rows := uniqueByAux df c [] df.rows }

/-- Models `merge_crash_vehicles_people`: standardize the three inputs,
resolve the shared id case-insensitively, return the primary unmodified when
it is non-empty but lacks the id, aggregate each non-empty related dataset
carrying the id, left-join, and de-duplicate by id keeping the first row. -/
def mergeCrashVehiclesPeople (crashes vehicles people : PlDF) (idCol : String) :
    Except PlErr PlDF :=
  let crashes := basicStandardize crashes
  let vehicles := basicStandardize vehicles
  let people := basicStandardize people
  let idLower := lowerStr idCol
  let crashes := ensureId idLower crashes
  let vehicles := ensureId idLower vehicles
  let people := ensureId idLower people
  if !crashes.rows.isEmpty && !((plCols crashes).contains idLower) then
    .ok crashes
  else
    let vehAgg :=
      if !vehicles.rows.isEmpty && (plCols vehicles).contains idLower then
        aggregateManyToOne vehicles idLower "veh"
      else emptyPl
    let pplAgg :=
      if !people.rows.isEmpty && (plCols people).contains idLower then
        aggregateManyToOne people idLower "ppl"
      else emptyPl
    match (if !vehAgg.rows.isEmpty then leftJoin crashes vehAgg idLower else .ok crashes) with
    | .error e => .error e
    | .ok out1 =>
      match (if !pplAgg.rows.isEmpty then leftJoin out1 pplAgg idLower else .ok out1) with
      | .error e => .error e
      | .ok out2 => uniqueSubsetFirst out2 idLower

/- ------------------------------------------------------------------ -/
/- Stage orchestrators : consume-loop ack/nack decisions               -/
/- ------------------------------------------------------------------ -/

/-- The resolution of one delivered message. Neither stage ever passes
`requeue=True`, so `nackRequeue` is never produced. -/
inductive Outcome where
  | ack
  | nackDrop
  | nackRequeue
deriving DecidableEq, Repr

/-- A parsed transform-queue message body (`none` components model absent
JSON keys). -/
structure TMsg where
  mtype : Option String
  corr : Option String
  rawBucket : Option String
  xformBucket : Option String
  cleanBucket : Option String
deriving DecidableEq, Repr

/-- Python truthiness of an optional string. -/
def truthy : Option String → Bool
  | none => false
  | some s => !s.data.isEmpty

/-- Python `a or b`: keep the first truthy operand. -/
def firstTruthy : List (Option String) → Option String
  | [] => none
  | o :: t => if truthy o then o else firstTruthy t

/-- Models the failure condition of `run_transform_job`: a falsy corr_id or
an unresolvable output bucket raises ValueError; the remaining store/network
work either succeeds or raises, abstracted by `jobOk`. -/
def runTransformRaises (m : TMsg) (envXform : Option String) (jobOk : Bool) : Bool :=
  if !(truthy m.corr) || !(truthy (firstTruthy [m.xformBucket, m.cleanBucket, envXform])) then
    true
  else !jobOk

/-- Models the transformer's `on_msg`: an unparseable body raises inside the
handler and is nacked without requeue; a message whose type is not
`transform`/`clean` is logged and ACKNOWLEDGED; otherwise the job runs and
any exception is nacked without requeue. -/
def transformerOnMsg (body : Option TMsg) (envXform : Option String) (jobOk : Bool) : Outcome :=
  match body with
  | none => .nackDrop
  | some m =>
    let mt := m.mtype.getD ""
    if mt == "transform" || mt == "clean" then
      if runTransformRaises m envXform jobOk then .nackDrop else .ack
    else .ack

/-- Models `get_corr_id_from_message`: prefer the transport header; else
parse the body, where `str(payload.get("corr_id"))` turns an absent field
into the literal string "None"; an unparseable body yields no corr_id.
(`body = some f` is a JSON-parseable body whose corr_id field is `f`.) -/
def getCorrIdFromMessage (header : Option String) (body : Option (Option String)) :
    Option String :=
  match header with
  | some h => some h
  | none =>
    match body with
    | some f => some (match f with | some c => c | none => "None")
    | none => none

/-- Models the cleaner's `handle`: a falsy corr_id is nacked without requeue
before any work; otherwise download/clean/upsert run (exceptions nacked
without requeue, abstracted by `jobOk`) and success is acknowledged. -/
def cleanerHandle (header : Option String) (body : Option (Option String)) (jobOk : Bool) :
    Outcome :=
  match getCorrIdFromMessage header body with
  | none => .nackDrop
  | some c =>
    if c.data.isEmpty then .nackDrop
    else if jobOk then .ack else .nackDrop

/- ------------------------------------------------------------------ -/
/- Claim theorems                                                      -/
/- ------------------------------------------------------------------ -/

/-- The PK values of a cleaned frame. -/
def outPKVals (df : PdDF) : List PdVal :=
  ((findCol df "crash_record_id").map (·.vals)).getD []

/-- A one-row cleaned batch, as `cleaner.py` would hand it to `upsert`. -/
def cleanBatch : PdDF :=
  [("crash_record_id", ⟨.strg, [.s "A1"]⟩), ("posted_speed_limit", ⟨.int64, [.i 30]⟩)]

/-- The store after upserting `cleanBatch` once into a fresh database. -/
def goldOnce : DuckDB :=
  ⟨[("crashes", ⟨[("crash_record_id", "VARCHAR"), ("posted_speed_limit", "BIGINT")],
     "crash_record_id", [[.s "A1", .i 30]]⟩)], none⟩

/-- C1: upserting the identical cleaned batch twice leaves the GoldTable
content unchanged (the second upsert returns the very same store), but the
claimed ledger row does not appear: `record_run` raises because the run-ledger
table was never created (`_init_meta`'s CREATE statement is malformed), so the
corr_id ends with zero ledger rows instead of exactly one. -/
theorem upsert_twice_gold_unchanged_but_no_ledger_row :
    upsert "crashes" cleanBatch "crash_record_id" initDB = .ok (goldOnce, 1) ∧
    upsert "crashes" cleanBatch "crash_record_id" goldOnce = .ok (goldOnce, 1) ∧
    recordRun "abc123" "crashes" 1 goldOnce = .error .catalogMissingTable ∧
    ledgerCountFor goldOnce "abc123" = 0 := by
  refine ⟨?_, ?_, ?_, ?_⟩ <;> decide

/-- C3: boolean inference reclassifies a textual column as soon as ANY value
maps under the vocabulary, not only when every value maps: `["Y","n","yes",
"NO"]` becomes `[1,0,1,0]` as specified, but `["Y","unknown"]` is also
reclassified, to Int8 `[1, null]`, silently nulling "unknown" — contradicting
the function's own docstring ("Only finalize as Int8 if every non-null value
maps to 0/1") and the claim, which require it to stay text. -/
theorem bool_inference_reclassifies_on_partial_vocabulary_match :
    mapYesNoToInt ⟨.obj, [.s "Y", .s "n", .s "yes", .s "NO"]⟩
      = ⟨.int8, [.i 1, .i 0, .i 1, .i 0]⟩ ∧
    mapYesNoToInt ⟨.obj, [.s "Y", .s "unknown"]⟩ = ⟨.int8, [.i 1, .na]⟩ ∧
    convertYesNo [("flag", ⟨.obj, [.s "Y", .s "unknown"]⟩)]
      = ([("flag", ⟨.int8, [.i 1, .na]⟩)], ["flag"]) := by
  refine ⟨?_, ?_, ?_⟩ <;> decide

/-- C4: the ledger upsert can never run as claimed. `_init_meta` executes the
malformed `CREATE TABLE IF NOT E(` statement — a parser error — and that text
does not even mention the `_clean_runs` table `record_run` inserts into, so
on the store left by `__init__` the first `record_run` call raises a catalog
error instead of inserting one ledger row. -/
theorem record_run_raises_ledger_table_never_created :
    initMeta initDB = .error .parserError ∧
    mentionsTable initMetaSQL ledgerTableName = false ∧
    recordRun "abc123" "crashes" 1 initDB = .error .catalogMissingTable ∧
    ledgerCountFor initDB "abc123" = 0 := by
  refine ⟨?_, ?_, ?_, ?_⟩ <;> decide

/-- C5: `merge_crash_vehicles_people` does raise on an empty primary input.
The schema-less empty frame `pl.DataFrame()` (exactly what `load_dataset`
returns when no raw object matches) slips past the `not crashes.is_empty()`
guard and reaches a join — or, with everything empty, the final
`unique(subset=...)` — on the missing id column, raising
ColumnNotFoundError instead of yielding an empty result. -/
theorem merge_raises_on_schemaless_empty_primary :
    mergeCrashVehiclesPeople emptyPl ⟨[("crash_record_id", .utf8)], [[.str "C1"]]⟩
      emptyPl "crash_record_id" = .error .columnNotFound ∧
    mergeCrashVehiclesPeople emptyPl emptyPl emptyPl "crash_record_id"
      = .error .columnNotFound := by
  refine ⟨?_, ?_⟩ <;> decide

/-- C2 counterexample: `apply_cleaning` de-duplicates on the raw PK before
trimming it, so the input PKs `"X1"` and `"X1 "` both survive and collide
after trimming — the output carries two rows with the same crash_record_id,
refuting the claimed uniqueness. -/
theorem apply_cleaning_trim_collision_pk_duplicate :
    applyCleaning [("crash_record_id", ⟨.obj, [.s "X1", .s "X1 "]⟩)]
      = .ok [("crash_record_id", ⟨.strg, [.s "X1", .s "X1"]⟩)] ∧
    ¬ (outPKVals [("crash_record_id", ⟨.strg, [.s "X1", .s "X1"]⟩)]).Nodup := by
  refine ⟨?_, ?_⟩ <;> decide

/-- C6 counterexample: at the transformer, a structurally invalid message
carrying an unrecognized job type is ACKNOWLEDGED (and thereby dropped as if
successful), not negatively acknowledged: `on_msg` acks any type outside
transform/clean. -/
theorem transformer_acks_unrecognized_job_type :
    transformerOnMsg (some ⟨some "bogus", some "abc123", none, some "xform", none⟩)
      none true = .ack ∧
    (Outcome.ack ≠ Outcome.nackDrop) := by
  refine ⟨?_, ?_⟩ <;> decide

/-- C10: upserting an empty batch returns a matched count of 0 and leaves the
store completely unchanged — `upsert` returns before opening a connection, so
no table is created, no schema evolves and no row is written, for every table
name and pk. -/
theorem upsert_empty_batch_returns_zero_unchanged
    (table : String) (df : PdDF) (pk : String) (db : DuckDB)
    (h : dfEmpty df = true) :
    upsert table df pk db = .ok (db, 0) := by
  simp [upsert, h]

/-- Witness for C10 at a concrete empty batch (columns but zero rows). -/
theorem upsert_empty_batch_returns_zero_unchanged_witness :
    dfEmpty [("crash_record_id", (⟨.strg, []⟩ : PdSeries))] = true ∧
    upsert "crashes" [("crash_record_id", ⟨.strg, []⟩)] "crash_record_id" goldOnce
      = .ok (goldOnce, 0) :=
  ⟨by decide,
   upsert_empty_batch_returns_zero_unchanged "crashes"
     [("crash_record_id", ⟨.strg, []⟩)] "crash_record_id" goldOnce (by decide)⟩

/-- C6 amended: what each stage actually does with structurally invalid
messages. The cleaner nacks without requeue when no corr_id is recoverable
(no header and unparseable body) or the recovered corr_id is empty, and a
parseable body lacking corr_id proceeds under the literal corr_id "None"
rather than being rejected. The transformer nacks without requeue an
unparseable body and a recognized-type message whose corr_id is missing, but
ACKNOWLEDGES (rather than nacks) any unrecognized job type. Neither stage
ever requeues. -/
theorem invalid_message_resolution :
    (∀ jobOk, cleanerHandle none none jobOk = .nackDrop) ∧
    (∀ b jobOk, cleanerHandle (some "") b jobOk = .nackDrop) ∧
    (∀ jobOk, cleanerHandle none (some none) jobOk
      = (if jobOk then Outcome.ack else Outcome.nackDrop)) ∧
    (∀ h b jobOk, cleanerHandle h b jobOk ≠ .nackRequeue) ∧
    (∀ e jobOk, transformerOnMsg none e jobOk = .nackDrop) ∧
    (∀ m e jobOk, (m.mtype.getD "" = "transform" ∨ m.mtype.getD "" = "clean") →
      m.corr = none → transformerOnMsg (some m) e jobOk = .nackDrop) ∧
    (∀ m e jobOk,
      ((m.mtype.getD "" == "transform") || (m.mtype.getD "" == "clean")) = false →
      transformerOnMsg (some m) e jobOk = .ack) ∧
    (∀ b e jobOk, transformerOnMsg b e jobOk ≠ .nackRequeue) := by
  refine ⟨?_, ?_, ?_, ?_, ?_, ?_, ?_, ?_⟩
  · intro jobOk; rfl
  · intro b jobOk; rfl
  · intro jobOk; cases jobOk <;> decide
  · intro h b jobOk
    unfold cleanerHandle
    cases getCorrIdFromMessage h b with
    | none => simp
    | some c =>
      by_cases hc : c.data.isEmpty
      · simp [hc]
      · cases jobOk <;> simp [hc]
  · intro e jobOk; rfl
  · intro m e jobOk ht hc
    have hb : ((m.mtype.getD "" == "transform") || (m.mtype.getD "" == "clean")) = true := by
      rcases ht with h | h <;> simp [h]
    simp [transformerOnMsg, hb, runTransformRaises, hc, truthy]
  · intro m e jobOk hb
    simp [transformerOnMsg, hb]
  · intro b e jobOk
    cases b with
    | none => simp [transformerOnMsg]
    | some m =>
      unfold transformerOnMsg
      by_cases hb : ((m.mtype.getD "" == "transform") || (m.mtype.getD "" == "clean")) = true
      · by_cases hr : runTransformRaises m e jobOk <;> simp [hb, hr]
      · simp [hb]

/-- Witness for C6's amended claim: a transform-typed message with no corr_id
is nacked without requeue, and a message with job type "weird" is
acknowledged. -/
theorem invalid_message_resolution_witness :
    transformerOnMsg (some ⟨some "transform", none, none, some "bucket", none⟩)
      none true = .nackDrop ∧
    transformerOnMsg (some ⟨some "weird", some "abc123", none, some "bucket", none⟩)
      none true = .ack :=
  ⟨invalid_message_resolution.2.2.2.2.2.1
      ⟨some "transform", none, none, some "bucket", none⟩ none true
      (Or.inl (by decide)) rfl,
   invalid_message_resolution.2.2.2.2.2.2.1
      ⟨some "weird", some "abc123", none, some "bucket", none⟩ none true (by decide)⟩

/- Supporting lemmas about the store model. -/

theorem find?_map_keyed (l : List (String × DTable)) (table : String) (f : DTable → DTable) :
    ((l.map (fun p => if p.1 == table then (p.1, f p.2) else p)).find? (fun p => p.1 == table))
      = (l.find? (fun p => p.1 == table)).map (fun p => (p.1, f p.2)) := by
  induction l with
  | nil => rfl
  | cons q l ih =>
    by_cases hq : (q.1 == table) = true
    · rw [List.map_cons, if_pos hq, List.find?_cons, List.find?_cons,
        show ((q.1, f q.2).1 == table) = true from hq]
      rfl
    · have hq' : (q.1 == table) = false := by simpa using hq
      rw [List.map_cons, if_neg hq, List.find?_cons, List.find?_cons, hq']
      exact ih

theorem findTable_evolveSchema (db : DuckDB) (table : String) (df : PdDF) :
    findTable (evolveSchema db table df) table
      = (findTable db table).map (fun t => evolveTable t df) := by
  unfold findTable evolveSchema
  rw [show (db.tables.map (fun p => if p.1 == table then (p.1, evolveTable p.2 df) else p))
      = (db.tables.map (fun p => if p.1 == table then
          (p.1, (fun t => evolveTable t df) p.2) else p)) from rfl]
  rw [find?_map_keyed db.tables table (fun t => evolveTable t df)]
  cases db.tables.find? (fun p => p.1 == table) <;> rfl

theorem evolveTable_eq (t : DTable) (df : PdDF) :
    evolveTable t df
      = ⟨t.cols ++ newColumns t df, t.pk,
         t.rows.map (fun r => r ++ List.replicate (newColumns t df).length PdVal.na)⟩ := by
  unfold evolveTable
  by_cases h : (newColumns t df).isEmpty
  · have he : newColumns t df = [] := by simpa [List.isEmpty_iff] using h
    simp [h, he]
  · simp [h]

theorem upsertRow_ok_cols (dc : List String) (pk : String) (df : PdDF) (t t' : DTable)
    (i : Nat) (h : upsertRow dc pk df t i = .ok t') : t'.cols = t.cols := by
  simp only [upsertRow] at h
  split at h
  · cases h
  · split at h <;> (cases h; rfl)

theorem foldlM_upsertRow_cols (dc : List String) (pk : String) (df : PdDF)
    (l : List Nat) (t t' : DTable)
    (h : l.foldlM (upsertRow dc pk df) t = .ok t') : t'.cols = t.cols := by
  induction l generalizing t with
  | nil => cases h; rfl
  | cons i l ih =>
    rw [List.foldlM_cons] at h
    cases hr : upsertRow dc pk df t i with
    | error e => rw [hr] at h; cases h
    | ok t1 =>
      rw [hr] at h
      exact (ih t1 h).trans (upsertRow_ok_cols dc pk df t t1 i hr)

theorem any_of_findTable (db : DuckDB) (table : String) (t : DTable)
    (h : findTable db table = some t) :
    db.tables.any (fun p => p.1 == table) = true := by
  unfold findTable at h
  cases hf : db.tables.find? (fun p => p.1 == table) with
  | none => rw [hf] at h; cases h
  | some q =>
    have hm := List.mem_of_find?_eq_some hf
    have hp := List.find?_some hf
    exact List.any_eq_true.mpr ⟨q, hm, hp⟩

theorem ensureTable_of_present (db : DuckDB) (table : String) (df : PdDF) (pk : String)
    (h : db.tables.any (fun p => p.1 == table) = true) :
    ensureTable db table df pk = db := by
  unfold ensureTable
  simp [h]

/-- C7: `_evolve_schema` adds exactly the incoming columns absent from the
stored table (names and inferred types appended after the existing columns,
which keep their names, types and order); every previously stored row reads
NULL in each added column and its old values are unchanged; and a successful
`upsert` never removes a column, so the column set is monotonically
non-shrinking across upserts. -/
theorem evolve_schema_adds_exactly_missing_columns
    (db : DuckDB) (table : String) (df : PdDF) (t : DTable)
    (ht : findTable db table = some t) :
    (findTable (evolveSchema db table df) table
      = some ⟨t.cols ++ newColumns t df, t.pk,
              t.rows.map (fun r => r ++ List.replicate (newColumns t df).length PdVal.na)⟩) ∧
    (∀ c ∈ newColumns t df, c.1 ∈ colNames df ∧ c.1 ∉ t.cols.map Prod.fst) ∧
    (∀ n ∈ colNames df, n ∉ t.cols.map Prod.fst → n ∈ (newColumns t df).map Prod.fst) ∧
    (∀ pk db₂ cnt, upsert table df pk db = .ok (db₂, cnt) →
      ∀ t₂, findTable db₂ table = some t₂ →
        ∀ c ∈ t.cols.map Prod.fst, c ∈ t₂.cols.map Prod.fst) := by
  refine ⟨?_, ?_, ?_, ?_⟩
  · rw [findTable_evolveSchema, ht]
    simp only [Option.map_some']
    rw [evolveTable_eq]
  · intro c hc
    unfold newColumns at hc
    simp only [List.mem_map, List.mem_filter] at hc
    obtain ⟨p, ⟨hpdf, hP⟩, rfl⟩ := hc
    refine ⟨List.mem_map.mpr ⟨p, hpdf, rfl⟩, ?_⟩
    intro hmem
    obtain ⟨col, hcol, hfst⟩ := List.mem_map.mp hmem
    simp only [Bool.not_eq_true', List.any_eq_false, beq_iff_eq] at hP
    exact hP col hcol hfst
  · intro n hn hnot
    obtain ⟨p, hpdf, rfl⟩ := List.mem_map.mp hn
    unfold newColumns
    refine List.mem_map.mpr ⟨(p.1, duckTypeOf p.2.dty), ?_, rfl⟩
    refine List.mem_map.mpr ⟨p, List.mem_filter.mpr ⟨hpdf, ?_⟩, rfl⟩
    simp only [Bool.not_eq_true', List.any_eq_false, beq_iff_eq]
    intro col hcol hfst
    exact hnot (List.mem_map.mpr ⟨col, hcol, hfst⟩)
  · intro pk db₂ cnt hup t₂ ht₂ c hc
    have h3 : findTable (evolveSchema db table df) table = some (evolveTable t df) := by
      rw [findTable_evolveSchema, ht]; rfl
    unfold upsert at hup
    split at hup
    · -- empty frame: the store is returned unchanged
      cases hup
      rw [ht] at ht₂
      cases ht₂
      exact hc
    · split at hup
      · cases hup
      · rw [ensureTable_of_present db table df pk (any_of_findTable db table t ht)] at hup
        simp only [h3] at hup
        split at hup
        · cases hup
        · cases hb : insertBatch (evolveTable t df) df pk with
          | error e => rw [hb] at hup; cases hup
          | ok t' =>
            rw [hb] at hup
            cases hup
            have hcols : t'.cols = (evolveTable t df).cols :=
              foldlM_upsertRow_cols _ _ _ _ _ _ hb
            -- identify t₂ with t'
            have ht₂' : (((evolveSchema db table df).tables.map
                  (fun p => if p.1 == table then (p.1, (fun _ : DTable => t') p.2) else p)).find?
                    (fun p => p.1 == table)).map (fun x => x.2) = some t₂ := ht₂
            rw [find?_map_keyed (evolveSchema db table df).tables table (fun _ => t')] at ht₂'
            unfold findTable at h3
            cases hf : (evolveSchema db table df).tables.find? (fun p => p.1 == table) with
            | none => rw [hf] at h3; cases h3
            | some q =>
              rw [hf] at ht₂'
              have heq : t' = t₂ := by simpa using ht₂'
              rw [← heq, hcols, evolveTable_eq]
              simp only [List.map_append, List.mem_append]
              exact Or.inl hc

/-- Witness for C7: on the concrete one-row store, upserting a batch carrying
the new column "make" grows the table by exactly that column, the stored row
reading NULL in it. -/
theorem evolve_schema_adds_exactly_missing_columns_witness :
    findTable (evolveSchema goldOnce "crashes"
        [("crash_record_id", ⟨.strg, [.s "B1"]⟩), ("make", ⟨.strg, [.s "kia"]⟩)]) "crashes"
      = some ⟨[("crash_record_id", "VARCHAR"), ("posted_speed_limit", "BIGINT"),
               ("make", "VARCHAR")], "crash_record_id", [[.s "A1", .i 30, .na]]⟩ := by
  have h := (evolve_schema_adds_exactly_missing_columns goldOnce "crashes"
    [("crash_record_id", ⟨.strg, [.s "B1"]⟩), ("make", ⟨.strg, [.s "kia"]⟩)]
    ⟨[("crash_record_id", "VARCHAR"), ("posted_speed_limit", "BIGINT")],
     "crash_record_id", [[.s "A1", .i 30]]⟩ (by decide)).1
  rw [h]
  decide

/- Supporting lemma: lookup through a per-column transformation. -/

theorem findCol_mapCols (f : String → PdSeries → PdSeries) (df : PdDF) (c : String) :
    findCol (mapCols f df) c = (findCol df c).map (f c) := by
  unfold findCol mapCols
  induction df with
  | nil => rfl
  | cons q l ih =>
    by_cases hq : (q.1 == c) = true
    · have hqc : q.1 = c := by simpa using hq
      rw [List.map_cons, List.find?_cons, List.find?_cons,
        show ((q.1, f q.1 q.2).1 == c) = true from hq]
      simp only [Option.map_some']
      rw [hqc]
    · have hq' : (q.1 == c) = false := by simpa using hq
      rw [List.map_cons, List.find?_cons, List.find?_cons,
        show ((q.1, f q.1 q.2).1 == c) = false from hq']
      exact ih

/-- C9: per-column behavior of `_impute_missing`. A boolean-like (Int8,
hence non-string) column in `bool_cols` is left untouched; a non-boolean
numeric column has every null replaced by the column median (and, when the
whole column is null, by 0, since the median of no values defaults to 0); a
string-like column other than an id column has every null replaced by the
literal "missing"; a string-like id column is untouched. -/
theorem impute_missing_per_column (df : PdDF) (boolCols : List String) (c : String)
    (sr : PdSeries) (h : findCol df c = some sr) :
    ∃ sr', findCol (imputeMissing df boolCols) c = some sr' ∧
      (c ∈ boolCols → isStrLike sr.dty = false → sr' = sr) ∧
      (c ∉ boolCols → isNumericTy sr.dty = true →
        sr' = ⟨sr.dty, sr.vals.map (fillnaVal (.q ((seriesMedian sr).getD (intToRat 0))))⟩) ∧
      (c ∉ boolCols → isNumericTy sr.dty = true → (∀ v ∈ sr.vals, v = .na) →
        sr'.vals = sr.vals.map (fun _ => .q (intToRat 0))) ∧
      (isStrLike sr.dty = true → c ∉ ID_COLS →
        sr' = ⟨sr.dty, sr.vals.map (fillnaVal (.s "missing"))⟩) ∧
      (isStrLike sr.dty = true → c ∈ ID_COLS → sr' = sr) := by
  have hsn : isStrLike sr.dty = true → isNumericTy sr.dty = false := by
    cases sr.dty <;> simp [isStrLike, isNumericTy]
  have hns : isNumericTy sr.dty = true → isStrLike sr.dty = false := by
    cases sr.dty <;> simp [isStrLike, isNumericTy]
  refine ⟨imputeCol boolCols c sr, ?_, ?_, ?_, ?_, ?_, ?_⟩
  · rw [imputeMissing, findCol_mapCols, h]; rfl
  · intro hb hs
    simp [imputeCol, hb, hs]
  · intro hnb hn
    simp [imputeCol, hnb, hn, hns hn]
  · intro hnb hn hall
    have hmed : seriesMedian sr = none := by
      unfold seriesMedian
      have hnil : sr.vals.filterMap pdValToRat = [] := by
        rw [List.filterMap_eq_nil_iff]
        intro v hv
        rw [hall v hv]
        rfl
      simp [hnil, sortRats]
    have h2 : imputeCol boolCols c sr
        = ⟨sr.dty, sr.vals.map (fillnaVal (.q ((seriesMedian sr).getD (intToRat 0))))⟩ := by
      simp [imputeCol, hnb, hn, hns hn]
    rw [h2]
    exact List.map_congr_left (fun v hv => by rw [hall v hv, hmed]; rfl)
  · intro hs hnid
    by_cases hb : c ∈ boolCols
    · simp [imputeCol, hb, hs, hnid]
    · simp [imputeCol, hb, hs, hsn hs, hnid]
  · intro hs hid
    by_cases hb : c ∈ boolCols
    · simp [imputeCol, hb, hs, hid]
    · simp [imputeCol, hb, hs, hsn hs, hid]

/-- Witness for C9 at the spec's example: the numeric column `[10, 20, null]`
has its null imputed to the median 15; an all-null numeric column imputes
to 0; and the nulls of a boolean-like Int8 column are left untouched. -/
theorem impute_missing_per_column_witness :
    (∃ sr', findCol (imputeMissing [("lane_cnt", ⟨.float64, [.i 10, .i 20, .na]⟩)] []) "lane_cnt"
      = some sr' ∧ sr' = ⟨.float64, [.i 10, .i 20, .q (mkRat 15 1)]⟩) ∧
    (∃ sr', findCol (imputeMissing [("street_no", ⟨.float64, [.na, .na]⟩)] []) "street_no"
      = some sr' ∧ sr'.vals = [.q (mkRat 0 1), .q (mkRat 0 1)]) ∧
    (∃ sr', findCol (imputeMissing [("flag", ⟨.int8, [.i 1, .na]⟩)] ["flag"]) "flag"
      = some sr' ∧ sr' = ⟨.int8, [.i 1, .na]⟩) := by
  refine ⟨?_, ?_, ?_⟩
  · obtain ⟨sr', h1, _, h2, _, _, _⟩ :=
      impute_missing_per_column [("lane_cnt", ⟨.float64, [.i 10, .i 20, .na]⟩)] []
        "lane_cnt" ⟨.float64, [.i 10, .i 20, .na]⟩ rfl
    refine ⟨sr', h1, ?_⟩
    rw [h2 (by decide) (by decide)]
    decide
  · obtain ⟨sr', h1, _, _, h3, _, _⟩ :=
      impute_missing_per_column [("street_no", ⟨.float64, [.na, .na]⟩)] []
        "street_no" ⟨.float64, [.na, .na]⟩ rfl
    refine ⟨sr', h1, ?_⟩
    rw [h3 (by decide) (by decide) (by decide)]
    decide
  · obtain ⟨sr', h1, h2, _, _, _, _⟩ :=
      impute_missing_per_column [("flag", ⟨.int8, [.i 1, .na]⟩)] ["flag"]
        "flag" ⟨.int8, [.i 1, .na]⟩ rfl
    exact ⟨sr', h1, h2 (by decide) (by decide)⟩

/- Supporting lemmas about first-occurrence dedup. -/

theorem mem_dedupFirstAux [DecidableEq α] (seen l : List α) (x : α) :
    x ∈ dedupFirstAux seen l ↔ x ∈ l ∧ x ∉ seen := by
  induction l generalizing seen with
  | nil => simp [dedupFirstAux]
  | cons a l ih =>
    by_cases ha : a ∈ seen
    · rw [show dedupFirstAux seen (a :: l) = dedupFirstAux seen l by
        simp [dedupFirstAux, ha]]
      rw [ih]
      constructor
      · rintro ⟨hx, hs⟩
        exact ⟨List.mem_cons_of_mem _ hx, hs⟩
      · rintro ⟨hx, hs⟩
        rcases List.mem_cons.mp hx with rfl | hx
        · exact absurd ha hs
        · exact ⟨hx, hs⟩
    · rw [show dedupFirstAux seen (a :: l) = a :: dedupFirstAux (a :: seen) l by
        simp [dedupFirstAux, ha]]
      rw [List.mem_cons, ih]
      constructor
      · rintro (rfl | ⟨hx, hs⟩)
        · exact ⟨List.mem_cons_self _ _, ha⟩
        · exact ⟨List.mem_cons_of_mem _ hx,
            fun h => hs (List.mem_cons_of_mem _ h)⟩
      · rintro ⟨hx, hs⟩
        by_cases hxa : x = a
        · exact Or.inl hxa
        · rcases List.mem_cons.mp hx with rfl | hx
          · exact Or.inl rfl
          · exact Or.inr ⟨hx, by simp [List.mem_cons, hxa, hs]⟩

theorem nodup_dedupFirstAux [DecidableEq α] (seen l : List α) :
    (dedupFirstAux seen l).Nodup := by
  induction l generalizing seen with
  | nil => simp [dedupFirstAux]
  | cons a l ih =>
    by_cases ha : a ∈ seen
    · simpa [dedupFirstAux, ha] using ih seen
    · rw [show dedupFirstAux seen (a :: l) = a :: dedupFirstAux (a :: seen) l by
        simp [dedupFirstAux, ha]]
      refine List.nodup_cons.mpr ⟨?_, ih (a :: seen)⟩
      intro hmem
      exact ((mem_dedupFirstAux _ _ _).mp hmem).2 (List.mem_cons_self a seen)

theorem nodup_dedupFirst [DecidableEq α] (l : List α) : (dedupFirst l).Nodup :=
  nodup_dedupFirstAux [] l

theorem mem_dedupFirst [DecidableEq α] (l : List α) (x : α) :
    x ∈ dedupFirst l ↔ x ∈ l := by
  rw [dedupFirst, mem_dedupFirstAux]
  simp

theorem filter_eq_singleton_of_nodup [DecidableEq α] (keys : List α) (v : α)
    (hnd : keys.Nodup) (hv : v ∈ keys) : keys.filter (fun k => k == v) = [v] := by
  induction keys with
  | nil => cases hv
  | cons a l ih =>
    by_cases hav : a = v
    · subst hav
      rw [List.filter_cons, if_pos (by simp)]
      have hnil : l.filter (fun k => k == a) = [] := by
        rw [List.filter_eq_nil_iff]
        intro b hb
        simp only [beq_iff_eq]
        exact fun hba => (List.nodup_cons.mp hnd).1 (hba ▸ hb)
      rw [hnil]
    · rw [List.filter_cons, if_neg (by simp [hav])]
      rcases List.mem_cons.mp hv with h | hv'
      · exact absurd h.symm hav
      · exact ih (List.nodup_cons.mp hnd).2 hv'

theorem mem_if_empty_branch {x : List PlVal} (ms : List (List PlVal))
    (f : List PlVal → List PlVal) (h : ms = []) :
    x ∈ (if ms.isEmpty then [x] else ms.map f) := by
  subst h
  simp

/-- C8: the Merger's many-to-one aggregation and left join. For every
non-empty related dataset and every id value occurring in it, the aggregated
frame has exactly one row for that id, carrying `<pfx>_count` = the number of
related rows sharing the id, and, for each of the first five textual columns
`c`, `<pfx>_<c>_list` = the sorted unique non-null values of `c` in the
group; the aggregate schema is exactly id, count, then the list columns; and
after a left join on the id, any primary row with no matching related row is
padded with nulls for every aggregate column. -/
theorem aggregate_count_lists_and_left_join_nulls
    (df : PlDF) (id pfx : String) (v : PlVal)
    (hne : df.rows ≠ []) (hv : v ∈ plColVals df id) :
    ((aggregateManyToOne df id pfx).rows.filter (fun r => r.headD .null == v))
      = [v :: .int ((df.rows.filter (fun r => plCell df r id == v)).length) ::
          (textColsOf df id).map (fun c => .lst (sortedUniqueStrs
            ((df.rows.filter (fun r => plCell df r id == v)).map (fun r => plCell df r c))))] ∧
    (aggregateManyToOne df id pfx).schema
      = (id, plTyOf df id) :: (pfx ++ "_count", PlTy.uint32) ::
          (textColsOf df id).map (fun c => (pfx ++ "_" ++ c ++ "_list", PlTy.listOfUtf8)) ∧
    (∀ (lf rf J : PlDF) (row : List PlVal),
      leftJoin lf rf id = .ok J → row ∈ lf.rows →
      (plCell lf row id = .null ∨ ∀ m ∈ rf.rows, ¬ plCell rf m id = plCell lf row id) →
      row ++ List.replicate ((rf.schema.filter (fun p => p.1 != id)).length) PlVal.null
        ∈ J.rows) := by
  have hne' : df.rows.isEmpty = false := by
    cases hrows : df.rows with
    | nil => exact absurd hrows hne
    | cons a l => rfl
  refine ⟨?_, ?_, ?_⟩
  · have hrows : (aggregateManyToOne df id pfx).rows
        = (dedupFirst (plColVals df id)).map (fun w =>
            w :: .int ((df.rows.filter (fun r => plCell df r id == w)).length) ::
              (textColsOf df id).map (fun c => .lst (sortedUniqueStrs
                ((df.rows.filter (fun r => plCell df r id == w)).map
                  (fun r => plCell df r c))))) := by
      simp [aggregateManyToOne, hne']
    rw [hrows, List.filter_map]
    have hfc : List.filter ((fun r => r.headD PlVal.null == v) ∘ (fun w =>
          w :: .int ((df.rows.filter (fun r => plCell df r id == w)).length) ::
            (textColsOf df id).map (fun c => .lst (sortedUniqueStrs
              ((df.rows.filter (fun r => plCell df r id == w)).map
                (fun r => plCell df r c))))))
        (dedupFirst (plColVals df id))
        = List.filter (fun k => k == v) (dedupFirst (plColVals df id)) := rfl
    rw [hfc, filter_eq_singleton_of_nodup _ v (nodup_dedupFirst _)
      ((mem_dedupFirst _ _).mpr hv)]
    rfl
  · simp [aggregateManyToOne, hne']
  · intro lf rf J row hJ hrow hnomatch
    have hms : (if plCell lf row id == PlVal.null then ([] : List (List PlVal))
        else rf.rows.filter (fun m => plCell rf m id == plCell lf row id)) = [] := by
      by_cases hk : (plCell lf row id == PlVal.null) = true
      · rw [if_pos hk]
      · rw [if_neg hk]
        rw [List.filter_eq_nil_iff]
        intro m hm
        rcases hnomatch with hnull | hno
        · exact absurd (by simp [hnull]) hk
        · simpa using hno m hm
    unfold leftJoin at hJ
    split at hJ
    · cases hJ
    · cases hJ
      simp only [List.mem_flatMap]
      exact ⟨row, hrow, mem_if_empty_branch _ _ hms⟩

/-- Witness for C8 at the spec's example: id "C1" with 3 vehicle rows gets
`veh_count = 3` and the sorted unique make list; a primary row whose id
matches no related row receives nulls for every aggregate column. -/
theorem aggregate_count_lists_and_left_join_nulls_witness :
    ((aggregateManyToOne
        ⟨[("crash_record_id", .utf8), ("make", .utf8)],
         [[.str "C1", .str "honda"], [.str "C1", .str "ford"], [.str "C1", .str "kia"]]⟩
        "crash_record_id" "veh").rows.filter
          (fun r => r.headD .null == PlVal.str "C1"))
      = [[.str "C1", .int 3, .lst ["ford", "honda", "kia"]]] ∧
    ([PlVal.str "C2", PlVal.null, PlVal.null] ∈
      (⟨[("crash_record_id", PlTy.utf8), ("veh_count", PlTy.uint32),
         ("veh_make_list", PlTy.listOfUtf8)],
        [[PlVal.str "C2", PlVal.null, PlVal.null]]⟩ : PlDF).rows) := by
  have h := aggregate_count_lists_and_left_join_nulls
    ⟨[("crash_record_id", .utf8), ("make", .utf8)],
     [[.str "C1", .str "honda"], [.str "C1", .str "ford"], [.str "C1", .str "kia"]]⟩
    "crash_record_id" "veh" (.str "C1") (by decide) (by decide)
  refine ⟨?_, ?_⟩
  · rw [h.1]
    decide
  · exact h.2.2
      ⟨[("crash_record_id", .utf8)], [[.str "C2"]]⟩
      ⟨[("crash_record_id", .utf8), ("veh_count", .uint32),
        ("veh_make_list", .listOfUtf8)],
       [[.str "C1", .int 3, .lst ["ford", "honda", "kia"]]]⟩
      ⟨[("crash_record_id", PlTy.utf8), ("veh_count", PlTy.uint32),
        ("veh_make_list", PlTy.listOfUtf8)],
       [[PlVal.str "C2", PlVal.null, PlVal.null]]⟩
      [.str "C2"] (by decide) (by decide) (Or.inr (by decide))

/- Supporting lemmas for the PK invariant of apply_cleaning. -/

theorem dropWhile_idem (p : Char → Bool) (l : List Char) :
    (l.dropWhile p).dropWhile p = l.dropWhile p := by
  induction l with
  | nil => rfl
  | cons a t ih =>
    by_cases ha : p a = true
    · rw [List.dropWhile_cons_of_pos ha]
      exact ih
    · rw [List.dropWhile_cons_of_neg ha, List.dropWhile_cons_of_neg ha]

theorem dropWhile_self_of_prefix (p : Char → Bool) (A t : List Char)
    (hA : A.dropWhile p = A) (ht : t <+: A) : t.dropWhile p = t := by
  cases t with
  | nil => rfl
  | cons a t' =>
    obtain ⟨s, hs⟩ := ht
    have hpa : ¬ p a = true := by
      intro hpa
      have h1 : A = (t' ++ s).dropWhile p := by
        rw [← hA, ← hs, List.cons_append, List.dropWhile_cons_of_pos hpa]
      have hle : ((t' ++ s).dropWhile p).length ≤ (t' ++ s).length :=
        (List.dropWhile_suffix p).sublist.length_le
      have hlen : A.length = (t' ++ s).length + 1 := by
        rw [← hs]
        simp
      rw [h1] at hlen
      omega
    rw [List.dropWhile_cons_of_neg hpa]

theorem stripChars_idem (l : List Char) : stripChars (stripChars l) = stripChars l := by
  unfold stripChars
  have hA : (l.dropWhile isSpaceChar).dropWhile isSpaceChar = l.dropWhile isSpaceChar :=
    dropWhile_idem isSpaceChar l
  have hpre : (((l.dropWhile isSpaceChar).reverse.dropWhile isSpaceChar).reverse)
      <+: l.dropWhile isSpaceChar := by
    have h0 : (((l.dropWhile isSpaceChar).reverse.dropWhile isSpaceChar)).reverse
        <+: ((l.dropWhile isSpaceChar).reverse).reverse :=
      List.reverse_prefix.mpr (List.dropWhile_suffix isSpaceChar)
    rw [List.reverse_reverse] at h0
    exact h0
  have hS : (((l.dropWhile isSpaceChar).reverse.dropWhile isSpaceChar).reverse).dropWhile
      isSpaceChar = ((l.dropWhile isSpaceChar).reverse.dropWhile isSpaceChar).reverse :=
    dropWhile_self_of_prefix isSpaceChar _ _ hA hpre
  rw [hS, List.reverse_reverse, dropWhile_idem]

theorem strip_idem (s : String) : strip (strip s) = strip s := by
  unfold strip
  have : (String.mk (stripChars s.data)).data = stripChars s.data := rfl
  rw [this, stripChars_idem]

theorem strsVal_strsVal (v : PdVal) : strsVal (strsVal v) = strsVal v := by
  cases v <;> simp [strsVal, stripVal, pdValToStr, strip_idem]

theorem applyMask_map_pred (pred : PdVal → Bool) (W : List PdVal) :
    applyMask (W.map pred) W = W.filter pred := by
  induction W with
  | nil => rfl
  | cons w ws ih =>
    by_cases hw : pred w = true <;> simp [applyMask, List.filter_cons, hw, ih]

theorem applyMask_keepLast_cons (v : PdVal) (vs : List PdVal) :
    applyMask (keepLastMask (v :: vs)) (v :: vs)
      = if v ∈ vs then applyMask (keepLastMask vs) vs
        else v :: applyMask (keepLastMask vs) vs := by
  by_cases hv : v ∈ vs <;> simp [keepLastMask, applyMask, hv]

theorem mem_keepLast (V : List PdVal) (x : PdVal)
    (h : x ∈ applyMask (keepLastMask V) V) : x ∈ V := by
  induction V with
  | nil => simp [keepLastMask, applyMask] at h
  | cons v vs ih =>
    rw [applyMask_keepLast_cons] at h
    by_cases hv : v ∈ vs
    · rw [if_pos hv] at h
      exact List.mem_cons_of_mem _ (ih h)
    · rw [if_neg hv] at h
      rcases List.mem_cons.mp h with rfl | h'
      · exact List.mem_cons_self _ _
      · exact List.mem_cons_of_mem _ (ih h')

theorem nodup_keepLast (V : List PdVal) : (applyMask (keepLastMask V) V).Nodup := by
  induction V with
  | nil => simp [keepLastMask, applyMask]
  | cons v vs ih =>
    rw [applyMask_keepLast_cons]
    by_cases hv : v ∈ vs
    · rw [if_pos hv]
      exact ih
    · rw [if_neg hv]
      exact List.nodup_cons.mpr ⟨fun hm => hv (mem_keepLast vs v hm), ih⟩

theorem find?_setCol_map_other (l : List (String × PdSeries)) (n : String) (sr : PdSeries)
    (m : String) (hnm : m ≠ n) :
    (l.map (fun p => if p.1 == n then (n, sr) else p)).find? (fun p => p.1 == m)
      = l.find? (fun p => p.1 == m) := by
  induction l with
  | nil => rfl
  | cons q t ih =>
    rw [List.map_cons, List.find?_cons, List.find?_cons]
    by_cases hq : (q.1 == n) = true
    · have h1 : ((n, sr).1 == m) = false := by simp [Ne.symm hnm]
      have hqn : q.1 = n := by simpa using hq
      have h2 : (q.1 == m) = false := by simp [hqn, Ne.symm hnm]
      rw [if_pos hq, h1, h2]
      exact ih
    · rw [if_neg hq]
      cases hqm : (q.1 == m) with
      | true => rfl
      | false => exact ih

theorem find?_setCol_map_self (l : List (String × PdSeries)) (n : String) (sr : PdSeries)
    (h : l.any (fun p => p.1 == n) = true) :
    (l.map (fun p => if p.1 == n then (n, sr) else p)).find? (fun p => p.1 == n)
      = some (n, sr) := by
  induction l with
  | nil => cases h
  | cons q t ih =>
    rw [List.map_cons, List.find?_cons]
    by_cases hq : (q.1 == n) = true
    · rw [if_pos hq, show ((n, sr).1 == n) = true by simp]
    · have hq' : (q.1 == n) = false := by simpa using hq
      rw [if_neg hq, hq']
      have h2 : t.any (fun p => p.1 == n) = true := by
        rw [List.any_cons, hq'] at h
        simpa using h
      exact ih h2

theorem find?_append_single_self (l : List (String × PdSeries)) (n : String)
    (sr : PdSeries) (h : l.any (fun p => p.1 == n) = false) :
    (l ++ [(n, sr)]).find? (fun p => p.1 == n) = some (n, sr) := by
  induction l with
  | nil =>
    rw [List.nil_append, List.find?_cons, show ((n, sr).1 == n) = true by simp]
  | cons q t ih =>
    rw [List.any_cons] at h
    have h1 : (q.1 == n) = false := by
      cases hq : (q.1 == n) with
      | true => rw [hq] at h; simp at h
      | false => rfl
    have h2 : t.any (fun p => p.1 == n) = false := by
      rw [h1] at h
      simpa using h
    rw [List.cons_append, List.find?_cons, h1]
    exact ih h2

theorem find?_append_single_other (l : List (String × PdSeries)) (n : String)
    (sr : PdSeries) (m : String) (hnm : m ≠ n) :
    (l ++ [(n, sr)]).find? (fun p => p.1 == m) = l.find? (fun p => p.1 == m) := by
  induction l with
  | nil =>
    rw [List.nil_append, List.find?_cons, show ((n, sr).1 == m) = false by
      simp [Ne.symm hnm]]
  | cons q t ih =>
    rw [List.cons_append, List.find?_cons, List.find?_cons]
    cases hqm : (q.1 == m) with
    | true => rfl
    | false => exact ih

theorem findCol_setCol_self (df : PdDF) (n : String) (sr : PdSeries) :
    findCol (setCol df n sr) n = some sr := by
  unfold setCol findCol
  by_cases h : df.any (fun p => p.1 == n) = true
  · rw [if_pos h, find?_setCol_map_self df n sr h]
    rfl
  · have h' : df.any (fun p => p.1 == n) = false := by
      cases hx : df.any (fun p => p.1 == n) with
      | true => exact absurd hx h
      | false => rfl
    rw [if_neg h, find?_append_single_self df n sr h']
    rfl

theorem findCol_setCol_other (df : PdDF) (n m : String) (sr : PdSeries)
    (hnm : m ≠ n) : findCol (setCol df n sr) m = findCol df m := by
  unfold setCol findCol
  by_cases h : df.any (fun p => p.1 == n) = true
  · rw [if_pos h, find?_setCol_map_other df n sr m hnm]
  · rw [if_neg h, find?_append_single_other df n sr m hnm]

theorem colNames_mapCols (f : String → PdSeries → PdSeries) (df : PdDF) :
    colNames (mapCols f df) = colNames df := by
  unfold colNames mapCols
  rw [List.map_map]
  rfl

theorem mem_colNames_of_findCol (d : PdDF) (c : String) (sr : PdSeries)
    (h : findCol d c = some sr) : c ∈ colNames d := by
  unfold findCol at h
  cases hf : d.find? (fun p => p.1 == c) with
  | none => rw [hf] at h; cases h
  | some q =>
    have hm := List.mem_of_find?_eq_some hf
    have hp := List.find?_some hf
    have hq : q.1 = c := by simpa using hp
    exact hq ▸ List.mem_map.mpr ⟨q, hm, rfl⟩

theorem findCol_of_mem_colNames (d : PdDF) (c : String)
    (h : c ∈ colNames d) : ∃ sr, findCol d c = some sr := by
  unfold findCol
  cases hf : d.find? (fun p => p.1 == c) with
  | some q => exact ⟨q.2, rfl⟩
  | none =>
    obtain ⟨q, hq, hq1⟩ := List.mem_map.mp h
    have := List.find?_eq_none.mp hf q hq
    simp [hq1] at this

theorem findCol_splitCrashDatetime (d : PdDF) :
    findCol (splitCrashDatetime d) "crash_record_id" = findCol d "crash_record_id" := by
  unfold splitCrashDatetime
  cases hf : findCol d DATE_COL with
  | none => rfl
  | some sr =>
    rw [findCol_setCol_other _ _ _ _ (by decide),
        findCol_setCol_other _ _ _ _ (by decide),
        findCol_setCol_other _ _ _ _ (by decide),
        findCol_setCol_other _ _ _ _ (by decide)]

theorem imputeCol_strg_id (bc : List String) (n : String) (s : PdSeries)
    (hs : s.dty = .strg) (hn : n ∈ ID_COLS) : imputeCol bc n s = s := by
  by_cases hb : n ∈ bc <;>
    simp [imputeCol, hb, hs, isNumericTy, isStrLike, hn]

theorem findCol_projected (keep : List String) (d : PdDF) (c : String) (sr : PdSeries)
    (hnd : keep.Nodup) (hc : c ∈ keep) (h : findCol d c = some sr) :
    findCol ((keep.filter (fun x => (colNames d).contains x)).filterMap
      (fun x => (findCol d x).map (fun s => (x, s)))) c = some sr := by
  induction keep with
  | nil => cases hc
  | cons k ks ih =>
    by_cases hkc : k = c
    · subst hkc
      have hcont : (colNames d).contains k = true := by
        have := mem_colNames_of_findCol d k sr h
        exact List.elem_iff.mpr this
      have hfa : (fun x => (findCol d x).map (fun s => (x, s))) k = some (k, sr) := by
        simp only [h, Option.map_some']
      rw [List.filter_cons, if_pos hcont,
        @List.filterMap_cons_some String (String × PdSeries)
          (fun x => (findCol d x).map (fun s => (x, s))) k
          (List.filter (fun x => (colNames d).contains x) ks) (k, sr) hfa]
      unfold findCol
      rw [List.find?_cons, show ((k, sr).1 == k) = true by simp]
      rfl
    · have hc' : c ∈ ks := by
        rcases List.mem_cons.mp hc with h' | h'
        · exact absurd h'.symm hkc
        · exact h'
      have htail := ih (List.nodup_cons.mp hnd).2 hc'
      rw [List.filter_cons]
      by_cases hcont : ((colNames d).contains k) = true
      · rw [if_pos hcont]
        cases hk : findCol d k with
        | none =>
          have hfa : (fun x => (findCol d x).map (fun s => (x, s))) k = none := by
            simp only [hk, Option.map_none']
          rw [@List.filterMap_cons_none String (String × PdSeries)
            (fun x => (findCol d x).map (fun s => (x, s))) k
            (List.filter (fun x => (colNames d).contains x) ks) hfa]
          exact htail
        | some s' =>
          have hfa : (fun x => (findCol d x).map (fun s => (x, s))) k = some (k, s') := by
            simp only [hk, Option.map_some']
          rw [@List.filterMap_cons_some String (String × PdSeries)
            (fun x => (findCol d x).map (fun s => (x, s))) k
            (List.filter (fun x => (colNames d).contains x) ks) (k, s') hfa]
          unfold findCol
          rw [List.find?_cons, show ((k, s').1 == c) = false by
            simp only [beq_eq_false_iff_ne]; exact hkc]
          exact htail
      · rw [if_neg hcont]
        exact htail

/-- The per-column action of `_convert_yes_no` (the first component of
`convertYesNo`, column by column). -/
def convCol (s : PdSeries) : PdSeries :=
  if isStrLike s.dty then
    (if (mapYesNoToInt s).dty == .int8 && (mapYesNoToInt s) != s then mapYesNoToInt s else s)
  else s

/-- The raw PK values entering de-duplication (after PK resolution). -/
def rawPKVals (df : PdDF) : List PdVal :=
  ((findCol (renamePK df) "crash_record_id").map (·.vals)).getD []

/-- The PK values surviving `drop_duplicates(subset=[pk], keep="last")`. -/
def keptPKVals (df : PdDF) : List PdVal :=
  applyMask (keepLastMask (rawPKVals df)) (rawPKVals df)

theorem findCol_finalPKHygiene (d : PdDF) (sr : PdSeries)
    (h : findCol d "crash_record_id" = some sr) :
    findCol (finalPKHygiene d) "crash_record_id"
      = some ⟨.strg, (sr.vals.map strsVal).filter
          (fun v => match v with | .s x => decide (x ≠ "") | _ => false)⟩ := by
  unfold finalPKHygiene
  rw [h]
  show findCol (mapCols (fun _ s =>
      ⟨s.dty, applyMask (keepPKMask (sr.vals.map strsVal)) s.vals⟩)
    (setCol d "crash_record_id" ⟨.strg, sr.vals.map strsVal⟩)) "crash_record_id" = _
  rw [findCol_mapCols, findCol_setCol_self]
  simp only [Option.map_some']
  unfold keepPKMask
  rw [applyMask_map_pred]

/-- C2 amended: every row of the cleaned output carries a crash_record_id
that is a non-null string of the form `strip y` with `strip y ≠ ""` (non-null
and non-empty after trimming); and the output PKs are pairwise distinct
provided the PK column is not reclassified by boolean inference and the
PK values surviving de-duplication remain distinct after string-conversion
and trimming. (Unconditional uniqueness fails: de-duplication precedes
trimming, so raw PKs that collide only after trimming both survive.) -/
theorem findCol_projectKeep (d : PdDF) (sr : PdSeries)
    (h : findCol d "crash_record_id" = some sr) :
    findCol (projectKeep d) "crash_record_id" = some sr := by
  unfold projectKeep
  exact findCol_projected KEEP_COLS d "crash_record_id" sr (by decide) (by decide) h

theorem apply_cleaning_pk_nonnull_nonempty_unique (df out : PdDF)
    (hok : applyCleaning df = .ok out) :
    (∀ v ∈ outPKVals out, ∃ y, v = PdVal.s (strip y) ∧ strip y ≠ "") ∧
    (mapYesNoToInt ⟨.strg, (keptPKVals df).map strsVal⟩
        = ⟨.strg, (keptPKVals df).map strsVal⟩ →
     (∀ v ∈ keptPKVals df, ∀ w ∈ keptPKVals df, strsVal v = strsVal w → v = w) →
     (outPKVals out).Nodup) := by
  have hok' : (if "crash_record_id" ∈ colNames (renamePK df) then
      Except.ok (projectKeep (finalPKHygiene (imputeMissing
        (splitCrashDatetime
          (convertYesNo (normalizeText (coerceNumeric (dropDupPKLast (renamePK df))))).1)
        (convertYesNo (normalizeText (coerceNumeric (dropDupPKLast (renamePK df))))).2)))
    else (Except.error CleanErr.missingPK : Except CleanErr PdDF)) = Except.ok out := hok
  by_cases hpk : "crash_record_id" ∈ colNames (renamePK df)
  case neg =>
    rw [if_neg hpk] at hok'
    cases hok'
  rw [if_pos hpk] at hok'
  have hout : projectKeep (finalPKHygiene (imputeMissing
      (splitCrashDatetime
        (convertYesNo (normalizeText (coerceNumeric (dropDupPKLast (renamePK df))))).1)
      (convertYesNo (normalizeText (coerceNumeric (dropDupPKLast (renamePK df))))).2)) = out := by
    injection hok'
  subst hout
  obtain ⟨sr₀, hsr₀⟩ := findCol_of_mem_colNames _ _ hpk
  have hraw : rawPKVals df = sr₀.vals := by
    unfold rawPKVals
    rw [hsr₀]
    rfl
  have hd₁ : dropDupPKLast (renamePK df)
      = mapCols (fun _ s => ⟨s.dty, applyMask (keepLastMask sr₀.vals) s.vals⟩)
          (renamePK df) := by
    unfold dropDupPKLast
    rw [hsr₀]
  have hfc₁ : findCol (dropDupPKLast (renamePK df)) "crash_record_id"
      = some ⟨sr₀.dty, keptPKVals df⟩ := by
    rw [hd₁, findCol_mapCols, hsr₀]
    simp only [Option.map_some']
    unfold keptPKVals
    rw [hraw]
  have hfc₂ : findCol (coerceNumeric (dropDupPKLast (renamePK df))) "crash_record_id"
      = some ⟨sr₀.dty, keptPKVals df⟩ := by
    unfold coerceNumeric
    rw [findCol_mapCols, hfc₁]
    simp only [Option.map_some']
    rw [if_neg (by decide)]
  have hfc₃ : findCol (normalizeText (coerceNumeric (dropDupPKLast (renamePK df))))
      "crash_record_id" = some ⟨.strg, (keptPKVals df).map strsVal⟩ := by
    unfold normalizeText
    rw [findCol_mapCols, hfc₂]
    simp only [Option.map_some']
    rw [if_pos (by decide)]
  have hconv : (convertYesNo (normalizeText (coerceNumeric (dropDupPKLast (renamePK df))))).1
      = mapCols (fun _ s => convCol s)
          (normalizeText (coerceNumeric (dropDupPKLast (renamePK df)))) := rfl
  have hfc₄ : findCol
      (convertYesNo (normalizeText (coerceNumeric (dropDupPKLast (renamePK df))))).1
      "crash_record_id" = some (convCol ⟨.strg, (keptPKVals df).map strsVal⟩) := by
    rw [hconv, findCol_mapCols, hfc₃]
    rfl
  have hfc₅ : findCol (splitCrashDatetime
      (convertYesNo (normalizeText (coerceNumeric (dropDupPKLast (renamePK df))))).1)
      "crash_record_id" = some (convCol ⟨.strg, (keptPKVals df).map strsVal⟩) := by
    rw [findCol_splitCrashDatetime, hfc₄]
  have hfc₆ : findCol (imputeMissing
      (splitCrashDatetime
        (convertYesNo (normalizeText (coerceNumeric (dropDupPKLast (renamePK df))))).1)
      (convertYesNo (normalizeText (coerceNumeric (dropDupPKLast (renamePK df))))).2)
      "crash_record_id"
      = some (imputeCol
          (convertYesNo (normalizeText (coerceNumeric (dropDupPKLast (renamePK df))))).2
          "crash_record_id" (convCol ⟨.strg, (keptPKVals df).map strsVal⟩)) := by
    unfold imputeMissing
    rw [findCol_mapCols, hfc₅]
    rfl
  have h₇ := findCol_finalPKHygiene _ _ hfc₆
  have hfinal := findCol_projectKeep _ _ h₇
  constructor
  · intro v hv
    unfold outPKVals at hv
    rw [hfinal] at hv
    simp only [Option.map_some', Option.getD_some] at hv
    rw [List.mem_filter] at hv
    obtain ⟨hmem, hpred⟩ := hv
    obtain ⟨u, hu, rfl⟩ := List.mem_map.mp hmem
    cases u with
    | na => simp [strsVal, pdValToStr, stripVal] at hpred
    | s y =>
      refine ⟨y, rfl, ?_⟩
      simpa [strsVal, pdValToStr, stripVal] using hpred
    | i n =>
      refine ⟨toString n, rfl, ?_⟩
      simpa [strsVal, pdValToStr, stripVal] using hpred
    | q x =>
      refine ⟨toString x, rfl, ?_⟩
      simpa [strsVal, pdValToStr, stripVal] using hpred
  · intro hb hinj
    have hcP : convCol ⟨.strg, (keptPKVals df).map strsVal⟩
        = ⟨.strg, (keptPKVals df).map strsVal⟩ := by
      unfold convCol
      rw [hb]
      simp [isStrLike]
    have hsr₆ : imputeCol
        (convertYesNo (normalizeText (coerceNumeric (dropDupPKLast (renamePK df))))).2
        "crash_record_id" (convCol ⟨.strg, (keptPKVals df).map strsVal⟩)
        = ⟨.strg, (keptPKVals df).map strsVal⟩ := by
      rw [hcP]
      exact imputeCol_strg_id _ _ _ rfl (by decide)
    rw [hsr₆] at h₇
    have hW : (((keptPKVals df).map strsVal).map strsVal) = (keptPKVals df).map strsVal := by
      rw [List.map_map]
      exact List.map_congr_left (fun v _ => strsVal_strsVal v)
    have hfinal' := findCol_projectKeep _ _ h₇
    unfold outPKVals
    rw [hfinal']
    simp only [Option.map_some', Option.getD_some]
    rw [show ((⟨.strg, (keptPKVals df).map strsVal⟩ : PdSeries).vals.map strsVal)
        = ((keptPKVals df).map strsVal).map strsVal from rfl, hW]
    exact List.Nodup.filter _
      (List.Nodup.map_on hinj (nodup_keepLast (rawPKVals df)))

/-- Witness for C2's amended claim on a two-row input with distinct PKs that
stay distinct after trimming: the output PKs are trimmed, non-empty and
pairwise distinct. -/
theorem apply_cleaning_pk_nonnull_nonempty_unique_witness :
    (∀ v ∈ outPKVals [("crash_record_id", (⟨.strg, [.s "B2", .s "B1"]⟩ : PdSeries))],
      ∃ y, v = PdVal.s (strip y) ∧ strip y ≠ "") ∧
    (outPKVals [("crash_record_id", (⟨.strg, [.s "B2", .s "B1"]⟩ : PdSeries))]).Nodup := by
  have h := apply_cleaning_pk_nonnull_nonempty_unique
    [("crash_record_id", ⟨.obj, [.s "B2", .s "B1"]⟩)]
    [("crash_record_id", ⟨.strg, [.s "B2", .s "B1"]⟩)] (by decide)
  exact ⟨h.1, h.2 (by decide) (by decide)⟩

end CrashPipeline
